import Mathlib

/-!
Verification of the TopSQL list-detail table logic
(`src/ui/lib/apps/TopSQL/pages/List/ListDetail/ListDetailTable.tsx`) and of the
Overview context module
(`src/ui/packages/tidb-dashboard-lib/src/apps/Overview/context/index.ts`)
of the tidb-dashboard repository, as a shallow embedding in Lean 4.

JavaScript numbers are modelled as `Int` (the values involved are millisecond
counts and rates; overflow and NaN behaviour of IEEE doubles is out of scope).
Optional / possibly-`undefined` fields are modelled as `Option`.
`Array.prototype.sort` is, per ES2019, a stable sort with respect to the
comparator; it is embedded below as a stable insertion sort
(`sortByCpuDesc`), which computes the same list as any stable sort for a
comparator inducing a total preorder.
-/

namespace TopSQL

/-- Tag distinguishing the three row variants of the plan table.
Modelled from the spec: the module `@lib/apps/TopSQL/utils/specialRecord`
(functions `convertNoPlanRecord`, `createOverallRecord`, `isNoPlanRecord`,
`isOverallRecord`) is not part of the given sources; the spec says the
synthetic row variants ("overall", "no-plan", real plan) form a tagged
union recognizable through dedicated predicates. -/
inductive SpecialKind where
  | real : SpecialKind
  | noPlan : SpecialKind
  | overall : SpecialKind
deriving DecidableEq, Repr, BEq

/-- `TopsqlSummaryPlanItem` (from `@lib/client`): one execution plan of a SQL
statement.  `plan_digest` may be absent or empty (meaning "no plan");
`cpu_time_ms` is an optional array of per-time-bucket CPU-time samples. -/
structure TopsqlSummaryPlanItem where
  plan_digest : Option String
  cpu_time_ms : Option (List Int)
  exec_count_per_sec : Option Int
  scan_records_per_sec : Option Int
  scan_indexes_per_sec : Option Int
  duration_per_exec_ms : Option Int
deriving DecidableEq, Repr

/-- `SQLRecord` (from `../ListTable`): one aggregated SQL statement, owning an
optional list of plans, possibly flagged as the "others" catch-all bucket. -/
structure SQLRecord where
  plans : Option (List TopsqlSummaryPlanItem)
  is_other : Option Bool
deriving DecidableEq, Repr

/-- `PlanRecord = { cpuTime : number } & TopsqlSummaryPlanItem`
(ListDetailTable.tsx line 190), extended with the modelled variant tag
(see `SpecialKind`). -/
structure PlanRecord where
  cpuTime : Int
  plan_digest : Option String
  cpu_time_ms : Option (List Int)
  exec_count_per_sec : Option Int
  scan_records_per_sec : Option Int
  scan_indexes_per_sec : Option Int
  duration_per_exec_ms : Option Int
  special : SpecialKind
deriving DecidableEq, Repr

/-- JavaScript `x || 0` applied to an optional number: `undefined` and `0` are
falsy and give `0`, every other number is returned unchanged. -/
def jsOrZero : Option Int → Int
  | none => 0
  | some t => if t = 0 then 0 else t

/-- JavaScript truthiness of an optional string: `undefined` and the empty
string are falsy (this is the `!r.plan_digest` test). -/
def digestEmpty : Option String → Bool
  | none => true
  | some s => s.isEmpty

/-- The `.map` step of `usePlanRecord` (lines 206–212):
`cpuTime = p.cpu_time_ms?.reduce((pt, t) => pt + t, 0) || 0`, then spread `p`
into a fresh record.  The fresh record is a real (non-synthetic) row. -/
def toPlanRecord (p : TopsqlSummaryPlanItem) : PlanRecord :=
  { cpuTime := jsOrZero ((p.cpu_time_ms).map (fun a => a.foldl (· + ·) 0))
    plan_digest := p.plan_digest
    cpu_time_ms := p.cpu_time_ms
    exec_count_per_sec := p.exec_count_per_sec
    scan_records_per_sec := p.scan_records_per_sec
    scan_indexes_per_sec := p.scan_indexes_per_sec
    duration_per_exec_ms := p.duration_per_exec_ms
    special := SpecialKind.real }

/-- The descending order on `cpuTime` established by the sort of line 213. -/
def cpuDesc (a b : PlanRecord) : Prop :=
  b.cpuTime ≤ a.cpuTime

instance : DecidableRel cpuDesc := fun a b => inferInstanceAs (Decidable (b.cpuTime ≤ a.cpuTime))

/-- One insertion step of the stable descending sort.  The JS comparator
`(a, b) => b.cpuTime - a.cpuTime` (line 213) puts `a` strictly before `b`
exactly when `b.cpuTime < a.cpuTime`; a stable sort keeps the earlier element
first on ties, so a newly inserted element passes every element whose key is
greater than or equal to its own. -/
def insertDesc (x : PlanRecord) : List PlanRecord → List PlanRecord
  | [] => [x]
  | y :: ys => if y.cpuTime < x.cpuTime then x :: y :: ys else y :: insertDesc x ys

/-- Auxiliary accumulator recursion for `sortByCpuDesc`: inserts the input
elements left to right into an already sorted accumulator. -/
def sortDescAux : List PlanRecord → List PlanRecord → List PlanRecord
  | acc, [] => acc
  | acc, x :: xs => sortDescAux (insertDesc x acc) xs

/-- `.sort((a, b) => b.cpuTime - a.cpuTime)` (line 213): stable sort in
descending order of `cpuTime`. -/
def sortByCpuDesc (l : List PlanRecord) : List PlanRecord :=
  sortDescAux [] l

/-- Modelled from the spec: `convertNoPlanRecord` of the absent
`specialRecord` module.  A plan whose digest is absent or empty is marked as
the distinguished "no-plan" variant; any other record is returned unchanged. -/
def convertNoPlanRecord (r : PlanRecord) : PlanRecord :=
  if digestEmpty r.plan_digest then { r with special := SpecialKind.noPlan } else r

/-- Modelled from the spec: `createOverallRecord` of the absent
`specialRecord` module.  The synthetic "overall" row summarizes the full
SQLRecord (not a specific plan): its CPU time aggregates all plans, it has no
digest of its own, and it carries the "overall" tag. -/
def createOverallRecord (record : SQLRecord) : PlanRecord :=
  { cpuTime := (((record.plans.getD []).map (fun p => (toPlanRecord p).cpuTime)).foldl (· + ·) 0)
    plan_digest := none
    cpu_time_ms := none
    exec_count_per_sec := none
    scan_records_per_sec := none
    scan_indexes_per_sec := none
    duration_per_exec_ms := none
    special := SpecialKind.overall }

/-- Modelled from the spec: predicate recognizing the "no-plan" variant. -/
def isNoPlanRecord (r : PlanRecord) : Bool :=
  r.special == SpecialKind.noPlan

/-- Modelled from the spec: predicate recognizing the "overall" variant. -/
def isOverallRecord (r : PlanRecord) : Bool :=
  r.special == SpecialKind.overall

/-- The `canSelectItem` callback passed to `useRecordSelection`
(ListDetailTable.tsx line 160): `(r) => !isNoPlanRecord(r) && !isOverallRecord(r)`. -/
def canSelectItem (r : PlanRecord) : Bool :=
  !isNoPlanRecord r && !isOverallRecord r

/-- Result shape of `usePlanRecord`. -/
structure PlanRecordResult where
  isMultiPlans : Bool
  records : List PlanRecord
deriving DecidableEq, Repr

/-- `usePlanRecord` (ListDetailTable.tsx lines 194–223).  The guard
`!record?.plans?.length` covers both an absent and an empty plans array.
`[...record.plans]` copies the array; the copy has the same contents, so under
value semantics the pipeline is applied to `record.plans` directly (the copy
is made explicit in `usePlanRecordTracked` below). -/
def usePlanRecord (record : SQLRecord) : PlanRecordResult :=
  match record.plans with
  | none => { isMultiPlans := false, records := [] }
  | some [] => { isMultiPlans := false, records := [] }
  | some ps =>
    let isMultiPlans := decide (ps.length > 1)
    let records := (sortByCpuDesc (ps.map toPlanRecord)).map convertNoPlanRecord
    { isMultiPlans := isMultiPlans
      records := if isMultiPlans then createOverallRecord record :: records else records }

/-- The `planRecord` memo of `ListDetailTable` (lines 163–169): the record
forwarded to `ListDetailContent` is the selection when there are multiple
plans, and `planRecords[0]` otherwise (`undefined`, i.e. `none`, when the
list is empty).  The currently selected record is produced by
`useRecordSelection` (external to the given sources) and is taken here as a
parameter. -/
def forwardedPlanRecord (isMultiPlans : Bool) (selectedRecord : Option PlanRecord)
    (planRecords : List PlanRecord) : Option PlanRecord :=
  if isMultiPlans then selectedRecord else planRecords.head?

/-- JavaScript truthiness of an optional boolean (`sqlRecord.is_other`). -/
def jsTruthy : Option Bool → Bool
  | none => false
  | some b => b

/-- What `ListDetailTable` renders: the `CardTable` always receives the
derived records; `ListDetailContent` is rendered only under the guard
`!sqlRecord.is_other &&` (lines 183–185), receiving the sql record and the
forwarded plan record. -/
structure ListDetailRender where
  tableItems : List PlanRecord
  detailContent : Option (SQLRecord × Option PlanRecord)
deriving DecidableEq, Repr

/-- The rendering decision of `ListDetailTable` (lines 171–187), with the
currently selected record as a parameter (see `forwardedPlanRecord`). -/
def listDetailTableRender (record : SQLRecord) (selectedRecord : Option PlanRecord) :
    ListDetailRender :=
  let res := usePlanRecord record
  let planRecord := forwardedPlanRecord res.isMultiPlans selectedRecord res.records
  { tableItems := res.records
    detailContent :=
      if jsTruthy record.is_other then none else some (record, planRecord) }

/-- JavaScript array spread `[...a]`: a fresh array with the same contents. -/
def copyArray (l : List PlanRecord) : List PlanRecord := l

/-- JavaScript in-place `.sort`: mutates its receiver and returns it.  In
`usePlanRecord` the receiver is the fresh array produced by `.map`, never an
array reachable from the input record. -/
def sortInPlace (l : List PlanRecord) : List PlanRecord := sortByCpuDesc l

/-- `usePlanRecord` with the fate of the input record made explicit: the
second component is the value of `record` after the computation.  The only
expression reading `record.plans` is the spread `[...record.plans]`, which
copies; the in-place sort acts on the array freshly created by `.map`, so the
input record, second component, is returned as it came in. -/
def usePlanRecordTracked (record : SQLRecord) : PlanRecordResult × SQLRecord :=
  match record.plans with
  | none => ({ isMultiPlans := false, records := [] }, record)
  | some [] => ({ isMultiPlans := false, records := [] }, record)
  | some ps =>
    let isMultiPlans := decide (ps.length > 1)
    let plansCopy := copyArray (ps.map toPlanRecord)
    let sorted := sortInPlace plansCopy
    let records := sorted.map convertNoPlanRecord
    ({ isMultiPlans := isMultiPlans
       records := if isMultiPlans then createOverallRecord record :: records else records },
     { record with plans := some ps })

end TopSQL

namespace Overview

/-- External response type from `@lib/client`; its fields are not defined in
the given sources. -/
structure TopologyTiDBInfo where
deriving Inhabited

/-- External response type from `@lib/client`. -/
structure TopologyPDInfo where
deriving Inhabited

/-- External response type from `@lib/client`. -/
structure TopologyGrafanaInfo where
deriving Inhabited

/-- External response type from `@lib/client`. -/
structure TopologyAlertManagerInfo where
deriving Inhabited

/-- External response type from `@lib/client`. -/
structure ClusterinfoStoreTopologyResponse where
deriving Inhabited

/-- External response type from `@lib/client`. -/
structure MetricsQueryResponse where
deriving Inhabited

/-- External request-configuration type from `@lib/types`. -/
structure ReqConfig where
deriving Inhabited

/-- External generic context-configuration type from `@lib/types`. -/
structure IContextConfig where
deriving Inhabited

/-- External query-spec type from `metrics-chart`. -/
structure QueryConfig where
deriving Inhabited

/-- External null-value transform policy from `metrics-chart`. -/
structure TransformNullValue where
deriving Inhabited

/-- An axios promise: an eventually resolved or rejected asynchronous value
(the asynchrony itself is external; only the interface shape matters here). -/
structure AxiosPromise (α : Type) where
  run : Unit → Except String α

/-- A plain JS promise, same modelling as `AxiosPromise`. -/
structure JSPromise (α : Type) where
  run : Unit → Except String α

/-- `OverviewMetricsQueryType` (context/index.ts lines 16–21). -/
structure OverviewMetricsQueryType where
  title : String
  queries : List QueryConfig
  unit : String
  nullValue : Option TransformNullValue

/-- The optional time-range-selector policy of `IMetricConfig`. -/
structure TimeRangeSelector where
  recent_seconds : List Int
  customAbsoluteRangePicker : Bool

/-- `IMetricConfig` (context/index.ts lines 23–30). -/
structure IMetricConfig where
  metricsQueries : List OverviewMetricsQueryType
  promAddrConfigurable : Option Bool
  timeRangeSelector : Option TimeRangeSelector

/-- Parameter object of `metricsQueryGet` (context/index.ts lines 52–57). -/
structure MetricsQueryParams where
  endTimeSec : Option Int
  query : Option String
  startTimeSec : Option Int
  stepSec : Option Int

/-- `IOverviewDataSource` (context/index.ts lines 32–58): the topology- and
metrics-fetching capability contract. -/
structure IOverviewDataSource where
  getTiDBTopology : Option ReqConfig → AxiosPromise (List TopologyTiDBInfo)
  getStoreTopology : Option ReqConfig → AxiosPromise ClusterinfoStoreTopologyResponse
  getPDTopology : Option ReqConfig → AxiosPromise (List TopologyPDInfo)
  getGrafanaTopology : Option ReqConfig → AxiosPromise TopologyGrafanaInfo
  getAlertManagerTopology : Option ReqConfig → AxiosPromise TopologyAlertManagerInfo
  getAlertManagerCounts : String → Option ReqConfig → AxiosPromise Int
  metricsQueryGet : MetricsQueryParams → JSPromise MetricsQueryResponse

/-- `IOverviewConfig = IContextConfig & IMetricConfig & { showViewMoreMetrics }`
(context/index.ts lines 60–63); the intersection type is modelled as a record
holding each part. -/
structure IOverviewConfig where
  ctx : IContextConfig
  metric : IMetricConfig
  showViewMoreMetrics : Bool

/-- `IOverviewContext` (context/index.ts lines 65–68). -/
structure IOverviewContext where
  ds : IOverviewDataSource
  cfg : IOverviewConfig

/-- Modelled from the spec: React's `createContext` mechanism (the `react`
library is external).  A context carries the default value given at creation,
and a consumer outside any provider reads exactly that default. -/
structure ReactContext (α : Type) where
  defaultValue : α

/-- `createContext(d)`: a context whose default value is `d`. -/
def createContext {α : Type} (d : α) : ReactContext α :=
  { defaultValue := d }

/-- Modelled from the spec: reading a context from a consumer that is outside
any provider yields the context's default value (no fault is thrown). -/
def readContextOutsideProvider {α : Type} (c : ReactContext α) : α :=
  c.defaultValue

/-- `OverviewContext = createContext<IOverviewContext | null>(null)`
(context/index.ts line 70); `IOverviewContext | null` is `Option` and the
`null` sentinel is `none`. -/
def OverviewContext : ReactContext (Option IOverviewContext) :=
  createContext none

end Overview


namespace TopSQL

/-- The sorted-and-converted list built by lines 205–214: map to `PlanRecord`,
stable sort descending by `cpuTime`, convert empty-digest rows. -/
def convertedSorted (ps : List TopsqlSummaryPlanItem) : List PlanRecord :=
  (sortByCpuDesc (ps.map toPlanRecord)).map convertNoPlanRecord

/-- Concrete plan from the spec example: digest "a", samples `[1, 2]`. -/
def samplePlanA : TopsqlSummaryPlanItem :=
  ⟨some "a", some [1, 2], none, none, none, none⟩

/-- Concrete plan from the spec example: digest "b", samples `[5]`. -/
def samplePlanB : TopsqlSummaryPlanItem :=
  ⟨some "b", some [5], none, none, none, none⟩

/-- Concrete plan with an empty digest (spec example for the no-plan case). -/
def samplePlanEmptyDigest : TopsqlSummaryPlanItem :=
  ⟨some "", some [1], none, none, none, none⟩

/-- Concrete plan without a CPU-time array. -/
def samplePlanNoCpu : TopsqlSummaryPlanItem :=
  ⟨some "c", none, none, none, none, none⟩

/-- Concrete SQL record with two plans. -/
def sampleRecordTwoPlans : SQLRecord :=
  ⟨some [samplePlanA, samplePlanB], none⟩

/-- Concrete SQL record with exactly one plan (empty digest). -/
def sampleRecordOnePlan : SQLRecord :=
  ⟨some [samplePlanEmptyDigest], none⟩

/-- Concrete SQL record with an empty plans array. -/
def sampleRecordNoPlans : SQLRecord :=
  ⟨some [], none⟩

/-- A concrete no-plan row. -/
def sampleNoPlanRow : PlanRecord :=
  ⟨0, none, none, none, none, none, none, SpecialKind.noPlan⟩

end TopSQL

namespace TopSQL

theorem insertDesc_length (x : PlanRecord) (l : List PlanRecord) :
    (insertDesc x l).length = l.length + 1 := by
  induction l with
  | nil => rfl
  | cons y ys ih =>
    simp only [insertDesc]
    split
    · simp
    · simp [ih]

theorem insertDesc_perm (x : PlanRecord) (l : List PlanRecord) :
    (insertDesc x l).Perm (x :: l) := by
  induction l with
  | nil => exact List.Perm.refl _
  | cons y ys ih =>
    simp only [insertDesc]
    split
    · exact List.Perm.refl _
    · exact (List.Perm.cons y ih).trans (List.Perm.swap x y ys)

theorem insertDesc_mem {x z : PlanRecord} {l : List PlanRecord}
    (h : z ∈ insertDesc x l) : z = x ∨ z ∈ l :=
  List.mem_cons.mp ((insertDesc_perm x l).mem_iff.mp h)

theorem insertDesc_sorted (x : PlanRecord) {l : List PlanRecord}
    (h : l.Pairwise cpuDesc) : (insertDesc x l).Pairwise cpuDesc := by
  induction l with
  | nil => simp [insertDesc, cpuDesc]
  | cons y ys ih =>
    rcases List.pairwise_cons.mp h with ⟨hy, hys⟩
    simp only [insertDesc]
    split
    · rename_i hlt
      refine List.pairwise_cons.mpr ⟨?_, h⟩
      intro z hz
      rcases List.mem_cons.mp hz with rfl | hz
      · exact le_of_lt hlt
      · exact le_trans (hy z hz) (le_of_lt hlt)
    · rename_i hnlt
      refine List.pairwise_cons.mpr ⟨?_, ih hys⟩
      intro z hz
      rcases insertDesc_mem hz with rfl | hz
      · exact le_of_not_lt hnlt
      · exact hy z hz

theorem insertDesc_filter (x : PlanRecord) {l : List PlanRecord} (v : Int)
    (h : l.Pairwise cpuDesc) :
    (insertDesc x l).filter (fun r => r.cpuTime == v) =
      l.filter (fun r => r.cpuTime == v) ++ (if x.cpuTime == v then [x] else []) := by
  induction l with
  | nil =>
    by_cases hx : x.cpuTime = v <;>
      simp [insertDesc, List.filter_cons, hx]
  | cons y ys ih =>
    rcases List.pairwise_cons.mp h with ⟨hy, hys⟩
    simp only [insertDesc]
    split
    · rename_i hlt
      by_cases hx : x.cpuTime = v
      · have hnil : (y :: ys).filter (fun r => r.cpuTime == v) = [] := by
          refine List.filter_eq_nil_iff.mpr ?_
          intro a ha
          have hle : a.cpuTime ≤ y.cpuTime := by
            rcases List.mem_cons.mp ha with rfl | ha
            · exact le_refl _
            · exact hy a ha
          have hav : a.cpuTime < v := hx ▸ lt_of_le_of_lt hle hlt
          simp [ne_of_lt hav]
        rw [List.filter_cons, hnil]
        simp [hx]
      · rw [List.filter_cons]
        simp [hx]
    · rw [List.filter_cons, List.filter_cons, ih hys]
      by_cases hyv : y.cpuTime = v <;> simp [hyv]

theorem sortDescAux_perm (xs acc : List PlanRecord) :
    (sortDescAux acc xs).Perm (acc ++ xs) := by
  induction xs generalizing acc with
  | nil => simp [sortDescAux]
  | cons x xs ih =>
    simp only [sortDescAux]
    exact ((ih _).trans ((insertDesc_perm x acc).append_right xs)).trans
      List.perm_middle.symm

theorem sortDescAux_sorted (xs : List PlanRecord) {acc : List PlanRecord}
    (h : acc.Pairwise cpuDesc) : (sortDescAux acc xs).Pairwise cpuDesc := by
  induction xs generalizing acc with
  | nil => exact h
  | cons x xs ih => exact ih (insertDesc_sorted x h)

theorem sortDescAux_filter (xs : List PlanRecord) {acc : List PlanRecord} (v : Int)
    (h : acc.Pairwise cpuDesc) :
    (sortDescAux acc xs).filter (fun r => r.cpuTime == v) =
      acc.filter (fun r => r.cpuTime == v) ++ xs.filter (fun r => r.cpuTime == v) := by
  induction xs generalizing acc with
  | nil => simp [sortDescAux]
  | cons x xs ih =>
    simp only [sortDescAux]
    rw [ih (insertDesc_sorted x h), insertDesc_filter x v h, List.filter_cons]
    by_cases hx : x.cpuTime = v <;> simp [hx, List.append_assoc]

theorem sortByCpuDesc_perm (l : List PlanRecord) : (sortByCpuDesc l).Perm l :=
  sortDescAux_perm l []

theorem sortByCpuDesc_length (l : List PlanRecord) :
    (sortByCpuDesc l).length = l.length :=
  (sortByCpuDesc_perm l).length_eq

theorem sortByCpuDesc_sorted (l : List PlanRecord) :
    (sortByCpuDesc l).Pairwise cpuDesc :=
  sortDescAux_sorted l List.Pairwise.nil

theorem sortByCpuDesc_filter (l : List PlanRecord) (v : Int) :
    (sortByCpuDesc l).filter (fun r => r.cpuTime == v) =
      l.filter (fun r => r.cpuTime == v) :=
  sortDescAux_filter l v List.Pairwise.nil

theorem convertNoPlanRecord_cpuTime (r : PlanRecord) :
    (convertNoPlanRecord r).cpuTime = r.cpuTime := by
  unfold convertNoPlanRecord
  split <;> rfl

theorem convertNoPlanRecord_plan_digest (r : PlanRecord) :
    (convertNoPlanRecord r).plan_digest = r.plan_digest := by
  unfold convertNoPlanRecord
  split <;> rfl

theorem convertNoPlanRecord_not_overall (r : PlanRecord)
    (h : isOverallRecord r = false) :
    isOverallRecord (convertNoPlanRecord r) = false := by
  unfold convertNoPlanRecord
  split
  · rfl
  · exact h

end TopSQL

namespace TopSQL

theorem foldl_add_sum (acc : Int) (l : List Int) :
    l.foldl (· + ·) acc = acc + l.sum := by
  induction l generalizing acc with
  | nil => simp
  | cons x xs ih => rw [List.foldl_cons, ih, List.sum_cons]; ring

theorem usePlanRecord_isMultiPlans_cons (r : SQLRecord) (p : TopsqlSummaryPlanItem)
    (ps : List TopsqlSummaryPlanItem) (h : r.plans = some (p :: ps)) :
    (usePlanRecord r).isMultiPlans = decide (1 < (p :: ps).length) := by
  simp only [usePlanRecord, h]

theorem usePlanRecord_records_cons (r : SQLRecord) (p : TopsqlSummaryPlanItem)
    (ps : List TopsqlSummaryPlanItem) (h : r.plans = some (p :: ps)) :
    (usePlanRecord r).records =
      if 1 < (p :: ps).length then createOverallRecord r :: convertedSorted (p :: ps)
      else convertedSorted (p :: ps) := by
  by_cases hm : 1 < (p :: ps).length <;>
    simp [usePlanRecord, h, hm, convertedSorted]

theorem convertedSorted_length (ps : List TopsqlSummaryPlanItem) :
    (convertedSorted ps).length = ps.length := by
  simp [convertedSorted, sortByCpuDesc_length]

theorem convertedSorted_sorted (ps : List TopsqlSummaryPlanItem) :
    (convertedSorted ps).Pairwise cpuDesc := by
  refine List.Pairwise.map convertNoPlanRecord ?_ (sortByCpuDesc_sorted (ps.map toPlanRecord))
  intro a b hab
  simpa [cpuDesc, convertNoPlanRecord_cpuTime] using hab

theorem convertedSorted_perm (ps : List TopsqlSummaryPlanItem) :
    (convertedSorted ps).Perm ((ps.map toPlanRecord).map convertNoPlanRecord) :=
  (sortByCpuDesc_perm (ps.map toPlanRecord)).map convertNoPlanRecord

theorem filter_cpu_map_convert (l : List PlanRecord) (v : Int) :
    (l.map convertNoPlanRecord).filter (fun q => q.cpuTime == v) =
      (l.filter (fun q => q.cpuTime == v)).map convertNoPlanRecord := by
  induction l with
  | nil => rfl
  | cons x xs ih =>
    simp only [List.map_cons, List.filter_cons, convertNoPlanRecord_cpuTime]
    by_cases hx : x.cpuTime = v <;> simp [hx, ih]

theorem convertedSorted_filter (ps : List TopsqlSummaryPlanItem) (v : Int) :
    (convertedSorted ps).filter (fun q => q.cpuTime == v) =
      ((ps.map toPlanRecord).filter (fun q => q.cpuTime == v)).map convertNoPlanRecord := by
  rw [convertedSorted, filter_cpu_map_convert, sortByCpuDesc_filter]

theorem convert_digestEmpty_noPlan (q : PlanRecord)
    (h : digestEmpty (convertNoPlanRecord q).plan_digest = true) :
    isNoPlanRecord (convertNoPlanRecord q) = true := by
  rw [convertNoPlanRecord_plan_digest] at h
  simp only [convertNoPlanRecord, h, if_true, isNoPlanRecord]
  rfl

theorem mem_usePlanRecord {r : SQLRecord} {rec : PlanRecord}
    (h : rec ∈ (usePlanRecord r).records) :
    rec = createOverallRecord r ∨ ∃ q : PlanRecord, rec = convertNoPlanRecord q := by
  cases hp : r.plans with
  | none => simp [usePlanRecord, hp] at h
  | some ps =>
    cases ps with
    | nil => simp [usePlanRecord, hp] at h
    | cons p ps' =>
      rw [usePlanRecord_records_cons r p ps' hp] at h
      by_cases hm : 1 < (p :: ps').length
      · rw [if_pos hm] at h
        rcases List.mem_cons.mp h with rfl | h
        · exact Or.inl rfl
        · rcases List.mem_map.mp h with ⟨q, _, rfl⟩
          exact Or.inr ⟨q, rfl⟩
      · rw [if_neg hm] at h
        rcases List.mem_map.mp h with ⟨q, _, rfl⟩
        exact Or.inr ⟨q, rfl⟩

end TopSQL

namespace TopSQL

/-- Claim C1: for every SQLRecord whose plans list has N > 1 elements,
`usePlanRecord` returns `isMultiPlans = true` and a records list of exactly
N + 1 elements whose first element is the synthetic "overall" record and
whose remaining N elements are the input plans (enriched with their computed
`cpuTime` and passed through the no-plan conversion) sorted in descending
order of `cpuTime`. -/
theorem claim_C1 (r : SQLRecord) (ps : List TopsqlSummaryPlanItem)
    (hps : r.plans = some ps) (hN : 1 < ps.length) :
    (usePlanRecord r).isMultiPlans = true ∧
    (usePlanRecord r).records.length = ps.length + 1 ∧
    (usePlanRecord r).records.head? = some (createOverallRecord r) ∧
    ((usePlanRecord r).records.drop 1).Pairwise cpuDesc ∧
    ((usePlanRecord r).records.drop 1).Perm
      ((ps.map toPlanRecord).map convertNoPlanRecord) := by
  cases ps with
  | nil => simp at hN
  | cons p ps' =>
    have hrec := usePlanRecord_records_cons r p ps' hps
    rw [if_pos hN] at hrec
    refine ⟨?_, ?_, ?_, ?_, ?_⟩
    · rw [usePlanRecord_isMultiPlans_cons r p ps' hps]
      exact decide_eq_true hN
    · rw [hrec, List.length_cons, convertedSorted_length]
    · rw [hrec, List.head?_cons]
    · rw [hrec, List.drop_one, List.tail_cons]
      exact convertedSorted_sorted (p :: ps')
    · rw [hrec, List.drop_one, List.tail_cons]
      exact convertedSorted_perm (p :: ps')

/-- Witness for C1 at the spec's concrete example (plans "a":[1,2], "b":[5]). -/
theorem claim_C1_witness :
    (usePlanRecord sampleRecordTwoPlans).isMultiPlans = true ∧
    (usePlanRecord sampleRecordTwoPlans).records.length =
      [samplePlanA, samplePlanB].length + 1 ∧
    (usePlanRecord sampleRecordTwoPlans).records.head? =
      some (createOverallRecord sampleRecordTwoPlans) ∧
    ((usePlanRecord sampleRecordTwoPlans).records.drop 1).Pairwise cpuDesc ∧
    ((usePlanRecord sampleRecordTwoPlans).records.drop 1).Perm
      (([samplePlanA, samplePlanB].map toPlanRecord).map convertNoPlanRecord) :=
  claim_C1 sampleRecordTwoPlans [samplePlanA, samplePlanB] rfl (by decide)

/-- Claim C2: the derivation computes each plan's `cpuTime` as the sum of the
elements of its `cpu_time_ms` array, and 0 when the array is absent. -/
theorem claim_C2 (p : TopsqlSummaryPlanItem) :
    (toPlanRecord p).cpuTime = (p.cpu_time_ms.getD []).sum ∧
    (p.cpu_time_ms = none → (toPlanRecord p).cpuTime = 0) := by
  cases hc : p.cpu_time_ms with
  | none => exact ⟨by simp [toPlanRecord, hc, jsOrZero], fun _ => by simp [toPlanRecord, hc, jsOrZero]⟩
  | some a =>
    refine ⟨?_, fun h => absurd h (by simp)⟩
    simp only [toPlanRecord, hc, Option.map_some', Option.getD_some, jsOrZero]
    rw [foldl_add_sum, zero_add]
    split
    · rename_i h0
      omega
    · rfl

/-- Witness for C2 at a concrete plan whose `cpu_time_ms` is absent. -/
theorem claim_C2_witness :
    (toPlanRecord samplePlanNoCpu).cpuTime = (samplePlanNoCpu.cpu_time_ms.getD []).sum ∧
    (toPlanRecord samplePlanNoCpu).cpuTime = 0 :=
  ⟨(claim_C2 samplePlanNoCpu).1, (claim_C2 samplePlanNoCpu).2 rfl⟩

/-- Claim C3: the descending sort is stable — among the derived records (with the
"overall" row, when present, dropped from the front), the sub-list of records
with any given `cpuTime` value equals the correspondingly filtered input
plans in their original order (passed through the no-plan conversion). -/
theorem claim_C3 (r : SQLRecord) (v : Int) :
    ((usePlanRecord r).records.drop
        (if (usePlanRecord r).isMultiPlans then 1 else 0)).filter
        (fun q => q.cpuTime == v) =
      (((r.plans.getD []).map toPlanRecord).filter
        (fun q => q.cpuTime == v)).map convertNoPlanRecord := by
  cases hp : r.plans with
  | none => simp [usePlanRecord, hp]
  | some ps =>
    cases ps with
    | nil => simp [usePlanRecord, hp]
    | cons p ps' =>
      rw [usePlanRecord_records_cons r p ps' hp,
        usePlanRecord_isMultiPlans_cons r p ps' hp]
      by_cases hm : 0 < ps'.length <;>
        simp [hm, convertedSorted_filter]

/-- Claim C4: a plan with an empty or absent digest is converted to the "no-plan"
variant, and both "no-plan" rows and the "overall" row are rejected by the
table's `canSelectItem` predicate; in particular every derived record with an
empty or absent digest is unselectable. -/
theorem claim_C4 (p : TopsqlSummaryPlanItem) (q : PlanRecord) (r : SQLRecord)
    (rec : PlanRecord)
    (hp : digestEmpty p.plan_digest = true)
    (hq : isNoPlanRecord q = true ∨ isOverallRecord q = true)
    (hrec : rec ∈ (usePlanRecord r).records)
    (hd : digestEmpty rec.plan_digest = true) :
    isNoPlanRecord (convertNoPlanRecord (toPlanRecord p)) = true ∧
    canSelectItem q = false ∧
    canSelectItem rec = false := by
  refine ⟨?_, ?_, ?_⟩
  · have : digestEmpty (toPlanRecord p).plan_digest = true := hp
    exact convert_digestEmpty_noPlan (toPlanRecord p)
      (by rw [convertNoPlanRecord_plan_digest]; exact this)
  · rcases hq with h | h <;> simp [canSelectItem, h]
  · rcases mem_usePlanRecord hrec with rfl | ⟨q', rfl⟩
    · have hov : isOverallRecord (createOverallRecord r) = true := rfl
      simp [canSelectItem, hov]
    · have : isNoPlanRecord (convertNoPlanRecord q') = true :=
        convert_digestEmpty_noPlan q' hd
      simp [canSelectItem, this]

/-- Witness for C4 at concrete inputs: an empty-digest plan, a no-plan row,
and the single derived record of `sampleRecordOnePlan`. -/
theorem claim_C4_witness :
    isNoPlanRecord (convertNoPlanRecord (toPlanRecord samplePlanEmptyDigest)) = true ∧
    canSelectItem sampleNoPlanRow = false ∧
    canSelectItem (convertNoPlanRecord (toPlanRecord samplePlanEmptyDigest)) = false :=
  claim_C4 samplePlanEmptyDigest sampleNoPlanRow sampleRecordOnePlan
    (convertNoPlanRecord (toPlanRecord samplePlanEmptyDigest))
    (by decide) (Or.inl (by decide)) (by decide) (by decide)

/-- Claim C5: the plan record forwarded to the detail panel is the currently
selected record when the SQL record has more than one plan, and the first
derived record (possibly `none` when there are no records) otherwise. -/
theorem claim_C5 (r : SQLRecord) (sel : Option PlanRecord) :
    forwardedPlanRecord (usePlanRecord r).isMultiPlans sel (usePlanRecord r).records =
      if 1 < (r.plans.getD []).length then sel
      else (usePlanRecord r).records.head? := by
  cases hp : r.plans with
  | none => simp [usePlanRecord, forwardedPlanRecord, hp]
  | some ps =>
    cases ps with
    | nil => simp [usePlanRecord, forwardedPlanRecord, hp]
    | cons p ps' =>
      rw [usePlanRecord_isMultiPlans_cons r p ps' hp]
      by_cases hm : 1 < (p :: ps').length <;>
        simp [forwardedPlanRecord, hm]

/-- Claim C6: a SQLRecord whose plans list is empty (or absent) derives
`isMultiPlans = false` and an empty records list. -/
theorem claim_C6 (r : SQLRecord) (h : r.plans.getD [] = []) :
    usePlanRecord r = { isMultiPlans := false, records := [] } := by
  cases hp : r.plans with
  | none => simp [usePlanRecord, hp]
  | some ps =>
    rw [hp, Option.getD_some] at h
    subst h
    simp [usePlanRecord, hp]

/-- Witness for C6 at a concrete record with an empty plans array. -/
theorem claim_C6_witness :
    usePlanRecord sampleRecordNoPlans = { isMultiPlans := false, records := [] } :=
  claim_C6 sampleRecordNoPlans rfl

/-- Claim C7: a SQLRecord with exactly one plan derives exactly one record, no
"overall" row, and `isMultiPlans = false`. -/
theorem claim_C7 (r : SQLRecord) (p : TopsqlSummaryPlanItem)
    (h : r.plans = some [p]) :
    (usePlanRecord r).isMultiPlans = false ∧
    (usePlanRecord r).records.length = 1 ∧
    (usePlanRecord r).records.filter isOverallRecord = [] := by
  have hrec := usePlanRecord_records_cons r p [] h
  rw [if_neg (by simp)] at hrec
  refine ⟨?_, ?_, ?_⟩
  · rw [usePlanRecord_isMultiPlans_cons r p [] h]
    simp
  · rw [hrec, convertedSorted_length]
    rfl
  · rw [hrec]
    show (convertedSorted [p]).filter isOverallRecord = []
    have : convertedSorted [p] = [convertNoPlanRecord (toPlanRecord p)] := rfl
    rw [this, List.filter_cons,
      convertNoPlanRecord_not_overall (toPlanRecord p) rfl]
    rfl

/-- Witness for C7 at a concrete single-plan record. -/
theorem claim_C7_witness :
    (usePlanRecord sampleRecordOnePlan).isMultiPlans = false ∧
    (usePlanRecord sampleRecordOnePlan).records.length = 1 ∧
    (usePlanRecord sampleRecordOnePlan).records.filter isOverallRecord = [] :=
  claim_C7 sampleRecordOnePlan samplePlanEmptyDigest rfl

/-- Claim C9: the derivation leaves its input unchanged — in the mutation-tracking
embedding, the SQL record after `usePlanRecord` runs equals the input record
(its plans array keeps its elements and order), and the tracked computation
produces the same result as the pure `usePlanRecord`. -/
theorem claim_C9 (r : SQLRecord) :
    (usePlanRecordTracked r).2 = r ∧
    (usePlanRecordTracked r).1 = usePlanRecord r := by
  obtain ⟨plans, flag⟩ := r
  cases plans with
  | none => exact ⟨rfl, rfl⟩
  | some ps =>
    cases ps with
    | nil => exact ⟨rfl, rfl⟩
    | cons p ps' => exact ⟨rfl, rfl⟩

/-- Claim C10: the detail content panel is rendered exactly when `is_other` is
falsy, while the plan table is rendered regardless. -/
theorem claim_C10 (r : SQLRecord) (sel : Option PlanRecord) :
    (listDetailTableRender r sel).tableItems = (usePlanRecord r).records ∧
    ((listDetailTableRender r sel).detailContent = none ↔ r.is_other = some true) := by
  refine ⟨rfl, ?_⟩
  cases ho : r.is_other with
  | none => simp [listDetailTableRender, jsTruthy, ho]
  | some b => cases b <;> simp [listDetailTableRender, jsTruthy, ho]

end TopSQL

namespace Overview

/-- Claim C8: the Overview context is created with default value `null` (`none`),
so a consumer outside any provider receives the null sentinel rather than a
thrown fault. -/
theorem claim_C8 :
    readContextOutsideProvider OverviewContext = none ∧
    OverviewContext.defaultValue = none :=
  ⟨rfl, rfl⟩

end Overview
